import Mathlib

/-!
Verification of the `deep_research` repository's core components against its
natural-language specification.

The Python sources are shallowly embedded: pure functions become Lean
functions; external collaborators (the reasoning model, the MCP tool servers,
the Tavily client, the structured-output summarization model, the scoping
workflow) become explicit function parameters or oracle values; Python
exceptions become `Except` values; Python dicts keyed by insertion order
become association lists.  Money amounts and token counts are modelled
with `ℚ` (Python floats are used by the source only as exact decimal
constants and sums/products thereof).
-/

namespace DeepResearch

/-! ## String primitives

Python's `needle in haystack`, `str.lower`, `str.endswith` and slicing are
modelled on `List Char`.  `strContains hay needle` is Python `needle in hay`.
-/

/-- Character-list prefix test: `isPrefixOfCL n h` is true when `n` is a
prefix of `h`. -/
def isPrefixOfCL : List Char → List Char → Bool
  | [], _ => true
  | _ :: _, [] => false
  | a :: as, b :: bs => a == b && isPrefixOfCL as bs

/-- Character-list substring test: does `needle` occur contiguously in
`hay`?  Models Python's `needle in hay`. -/
def containsCL (hay needle : List Char) : Bool :=
  match hay with
  | [] => needle.isEmpty
  | _ :: t => isPrefixOfCL needle hay || containsCL t needle

/-- Python `needle in hay` on strings. -/
def strContains (hay needle : String) : Bool :=
  containsCL hay.data needle.data

/-- Python `hay.endswith(needle)`. -/
def strEndsWith (hay needle : String) : Bool :=
  isPrefixOfCL needle.data.reverse hay.data.reverse

/-- Python `s.lower()` (ASCII case folding, which is all the source uses),
written over the character list so that it evaluates by kernel reduction. -/
def strLower (s : String) : String :=
  ⟨s.data.map Char.toLower⟩

/-- Python `s.strip()`: drop whitespace from both ends. -/
def strStrip (s : String) : String :=
  ⟨((s.data.dropWhile Char.isWhitespace).reverse.dropWhile Char.isWhitespace).reverse⟩

/-! ## Cost Ledger (`cost_tracker.py`)

`MODEL_PRICING` maps a model identifier to its price entry.  An entry is a
Python dict holding either token rates (`input`/`output`, USD per 1K tokens)
or a flat `per_search` rate; absent dict keys are `none`.  Accessing an
absent key (Python `pricing["input"]`) raises `KeyError`, modelled by
`Except.error`.
-/

/-- One price-table entry: the three dict keys that occur in
`CostTracker.MODEL_PRICING`, each optional exactly as in the Python dicts. -/
structure Pricing where
  input : Option ℚ
  output : Option ℚ
  per_search : Option ℚ
deriving Repr, DecidableEq

/-- Static price table `CostTracker.MODEL_PRICING` (USD per 1K tokens;
`tavily:search` instead carries a flat per-search rate). -/
def MODEL_PRICING : String → Option Pricing
  | "openai:gpt-4o-mini" => some ⟨some 0.00015, some 0.0006, none⟩
  | "openai:gpt-4o" => some ⟨some 0.0025, some 0.010, none⟩
  | "openai:gpt-4.1" => some ⟨some 0.03, some 0.06, none⟩
  | "openai:gpt-4.1-mini" => some ⟨some 0.0015, some 0.006, none⟩
  | "anthropic:claude-sonnet-4-20250514" => some ⟨some 0.003, some 0.015, none⟩
  | "anthropic:claude-haiku-4" => some ⟨some 0.0008, some 0.004, none⟩
  | "tavily:search" => some ⟨none, none, some 0.005⟩
  | _ => none

/-- The default entry used by `calculate_cost` for identifiers absent from
the table: `{"input": 0.001, "output": 0.002}`. -/
def defaultPricing : Pricing := ⟨some 0.001, some 0.002, none⟩

/-- `CostTracker.calculate_cost`: `pricing = MODEL_PRICING.get(name, default)`
followed by `pricing["input"]`/`pricing["output"]` accesses; a missing dict
key raises `KeyError`. -/
def calculate_cost (model_name : String) (input_tokens output_tokens : ℕ) :
    Except String ℚ :=
  let pricing := (MODEL_PRICING model_name).getD defaultPricing
  match pricing.input with
  | none => .error "KeyError: input"
  | some input_rate =>
    match pricing.output with
    | none => .error "KeyError: output"
    | some output_rate =>
      .ok (((input_tokens : ℚ) / 1000) * input_rate
        + ((output_tokens : ℚ) / 1000) * output_rate)

/-- One recorded billable call (`ModelUsage`; the wall-clock timestamp is an
external effect and is omitted). -/
structure ModelUsage where
  model_name : String
  input_tokens : ℕ
  output_tokens : ℕ
  cost_usd : ℚ
  operation : String
deriving Repr, DecidableEq

/-- The mutable state of the global `CostTracker`: the optional active
session (as its list of recorded calls) and the archived history. -/
structure CostTrackerState where
  current_session : Option (List ModelUsage)
  session_history : List (List ModelUsage)
deriving Repr, DecidableEq

/-- `CostTracker.track_model_call`: computes the cost (propagating the
`KeyError` that `calculate_cost` can raise), appends the record to the
active session when one is open, and returns the record. -/
def track_model_call (st : CostTrackerState) (model_name : String)
    (input_tokens output_tokens : ℕ) (operation : String) :
    Except String (ModelUsage × CostTrackerState) :=
  match calculate_cost model_name input_tokens output_tokens with
  | .error e => .error e
  | .ok cost_usd =>
    let usage : ModelUsage :=
      ⟨model_name, input_tokens, output_tokens, cost_usd, operation⟩
    let st' : CostTrackerState :=
      match st.current_session with
      | some calls => { st with current_session := some (calls ++ [usage]) }
      | none => st
    .ok (usage, st')

/-- `CostTracker.track_tavily_search`: flat per-search rate, no token cost,
never raises. -/
def track_tavily_search (st : CostTrackerState) (num_searches : ℕ) :
    ModelUsage × CostTrackerState :=
  let cost_per_search : ℚ :=
    (((MODEL_PRICING "tavily:search").map Pricing.per_search).getD
      (some 0.005)).getD 0.005
  let usage : ModelUsage :=
    ⟨"tavily:search", 0, 0, cost_per_search * num_searches, "web_search"⟩
  let st' : CostTrackerState :=
    match st.current_session with
    | some calls => { st with current_session := some (calls ++ [usage]) }
    | none => st
  (usage, st')

/-! ## Search Provider Adapter (`utils.py`)

`assess_source_quality`, `deduplicate_search_results`,
`summarize_webpage_content` and the `tavily_search` tool.  The Tavily client
and the summarization model are external collaborators and appear as
parameters.
-/

/-- Result of `assess_source_quality` (the returned Python dict). -/
structure QualityAssessment where
  quality_score : ℕ
  source_type : String
  quality_indicators : List String
  is_academic : Bool
deriving Repr, DecidableEq

/-- The `high_quality_domains` table, in Python dict insertion order
(the source iterates it in this order and `break`s at the first match).
Each entry is `(domain, score, type, indicator)`. -/
def high_quality_domains : List (String × ℕ × String × String) :=
  [ ("arxiv.org", 9, "preprint", "ArXiv preprint server"),
    ("pubmed.ncbi.nlm.nih.gov", 10, "peer-reviewed", "PubMed indexed journal"),
    ("nature.com", 10, "peer-reviewed", "Nature Publishing"),
    ("science.org", 10, "peer-reviewed", "Science journal"),
    ("ieee.org", 9, "peer-reviewed", "IEEE publication"),
    ("acm.org", 9, "peer-reviewed", "ACM publication"),
    ("springer.com", 8, "peer-reviewed", "Springer journal"),
    ("elsevier.com", 8, "peer-reviewed", "Elsevier journal"),
    ("jstor.org", 9, "peer-reviewed", "JSTOR academic archive"),
    ("wiley.com", 8, "peer-reviewed", "Wiley journal"),
    ("tandfonline.com", 8, "peer-reviewed", "Taylor & Francis journal") ]

/-- The domain-table scan of `assess_source_quality`: first entry of
`high_quality_domains` whose domain is a substring of `url.lower()`,
yielding `(base score, source type, indicator)`. -/
def domainLookup (url : String) : Option (ℕ × String × String) :=
  (high_quality_domains.find? fun d => strContains (strLower url) d.1).map (·.2)

/-- The `quality_patterns` bonus table, in insertion order. -/
def quality_patterns : List (String × ℕ) :=
  [ ("peer-reviewed", 2), ("peer reviewed", 2), ("systematic review", 3),
    ("meta-analysis", 3), ("longitudinal study", 2),
    ("randomized controlled", 3), ("doi:", 2), ("pmid:", 2), ("abstract", 1),
    ("methodology", 1), ("results", 1), ("conclusion", 1), ("references", 1),
    ("bibliography", 1) ]

/-- The running `quality_score` of `assess_source_quality` just before the
final cap: domain base score, plus the additive keyword bonuses over
`(content + " " + title).lower()`, plus the `.pdf` suffix bonus. -/
def uncapped_quality_score (url title content : String) : ℕ :=
  let baseScore := ((domainLookup url).map (·.1)).getD 0
  let content_lower := strLower (content ++ " " ++ title)
  let patternScore := ((quality_patterns.filter fun p =>
    strContains content_lower p.1).map (·.2)).sum
  let pdfBonus := if strEndsWith (strLower url) ".pdf" then 1 else 0
  baseScore + patternScore + pdfBonus

/-- `assess_source_quality(url, title, content)`: domain base score, additive
keyword bonuses, `.pdf` bonus; the returned score is capped at 10
(`min(quality_score, 10)`) while the academic flag is computed from the
uncapped running score (`quality_score >= 5`). -/
def assess_source_quality (url title content : String) : QualityAssessment :=
  let base := domainLookup url
  let source_type := (base.map (·.2.1)).getD "general"
  let baseInds := (base.map fun b => [b.2.2]).getD []
  let content_lower := strLower (content ++ " " ++ title)
  let hits := quality_patterns.filter fun p => strContains content_lower p.1
  let patternInds := hits.map fun p => "Contains \x27" ++ p.1 ++ "\x27"
  let pdfInds := if strEndsWith (strLower url) ".pdf" then ["PDF document"] else []
  { quality_score := min (uncapped_quality_score url title content) 10
    source_type := source_type
    quality_indicators := baseInds ++ patternInds ++ pdfInds
    is_academic := decide (5 ≤ uncapped_quality_score url title content) }

/-- One raw Tavily hit.  Fields mirror the dict keys the source reads;
optional fields model `item.get(...)` with its default. -/
structure RawItem where
  title : Option String
  url : Option String
  content : Option String
  raw_content : Option String
deriving Repr, DecidableEq

/-- A search hit as consumed by `deduplicate_search_results`, where
`result['url']` is accessed unconditionally. -/
structure SearchHit where
  url : String
  title : String
  content : String
  raw_content : Option String
deriving Repr, DecidableEq

/-- One insertion step of `deduplicate_search_results`: Python
`if url not in unique_results: unique_results[url] = result` on an
insertion-ordered dict, modelled as an association list. -/
def dedupInsert (m : List (String × SearchHit)) (r : SearchHit) :
    List (String × SearchHit) :=
  if (m.lookup r.url).isSome then m else m ++ [(r.url, r)]

/-- `deduplicate_search_results(search_results)`: first-seen-wins map from
URL to hit, across all `response['results']` lists in order. -/
def deduplicate_search_results (search_results : List (List SearchHit)) :
    List (String × SearchHit) :=
  search_results.foldl (fun m response => response.foldl dedupInsert m) []

/-- Structured summarizer output (`Summary` schema): exactly two fields. -/
structure Summary where
  summary : String
  key_excerpts : String
deriving Repr, DecidableEq

/-- `summarize_webpage_content(webpage_content)`.  The structured-output
model call either returns a `Summary` or throws; `oracle` is its outcome.
On success the two fields are wrapped in the fixed envelope; on failure the
source returns `webpage_content[:1000] + "..."` when the content exceeds
1000 characters and the raw content verbatim otherwise. -/
def summarize_webpage_content (oracle : Option Summary)
    (webpage_content : String) : String :=
  match oracle with
  | some summary =>
    "<summary>\n" ++ summary.summary ++ "\n</summary>\n\n" ++
      "<key_excerpts>\n" ++ summary.key_excerpts ++ "\n</key_excerpts>"
  | none =>
    if webpage_content.length > 1000
    then ⟨webpage_content.data.take 1000⟩ ++ "..."
    else webpage_content

/-- The academic-intent keyword list of `tavily_search`, matched as
substrings of `query.lower()`. -/
def academic_terms : List String :=
  [ "academic", "research", "study", "peer-reviewed", "journal", "paper",
    "citation", "scholarly", "university", "systematic review",
    "meta-analysis", "site:arxiv.org", "site:scholar.google.com",
    "filetype:pdf" ]

/-- Academic-intent detection in `tavily_search`. -/
def is_academic_query (query : String) : Bool :=
  academic_terms.any fun term => strContains (strLower query) term

/-- One entry of `results_with_quality` inside `tavily_search`. -/
structure QualifiedResult where
  title : String
  url : String
  content : String
  quality : QualityAssessment
deriving Repr, DecidableEq

/-- Python's stable in-place `list.sort(key=..., reverse=True)` on the
quality score: a stable merge sort, descending. -/
def sortByQualityDesc (rs : List QualifiedResult) : List QualifiedResult :=
  rs.mergeSort fun a b => b.quality.quality_score ≤ a.quality.quality_score

/-- The per-hit body of the quality-assessment loop in `tavily_search`:
read the item fields with their `get` defaults, optionally summarize the
raw content, and attach the quality assessment. -/
def qualify_result (summarizer : String → String) (include_raw_content : Bool)
    (item : RawItem) : QualifiedResult :=
  let title := item.title.getD "No title"
  let url := item.url.getD "No URL"
  let content0 := item.content.getD "No content available"
  let content :=
    match include_raw_content, item.raw_content with
    | true, some raw => summarizer raw
    | _, _ => content0
  { title := title, url := url, content := content,
    quality := assess_source_quality url title content }

/-- The result-list pipeline of `tavily_search`, given the client's reply.
`client` maps the requested result count to the reply: an exception
(`Except.error`), a reply with no `results` key (`none`), or the raw hit
list.  `summarizer` stands for `summarize_webpage_content` applied to a
raw content string.  Returns the final (filtered, sorted, truncated) list
that the formatting loop iterates over, or the error/fallback text. -/
def tavily_search_results (client : ℕ → Except String (Option (List RawItem)))
    (summarizer : String → String) (query : String) (max_results : ℕ)
    (include_raw_content : Bool) :
    Except String (Option (List QualifiedResult)) :=
  let academic := is_academic_query query
  let requested := if academic then max_results * 2 else max_results
  match client requested with
  | .error e => .error e
  | .ok none => .ok none
  | .ok (some items) =>
    let results_with_quality :=
      items.map (qualify_result summarizer include_raw_content)
    let sorted :=
      if academic then sortByQualityDesc results_with_quality
      else results_with_quality
    let filtered :=
      if academic then
        let academic_results := sorted.filter (·.quality.is_academic)
        if 2 ≤ academic_results.length then academic_results else sorted
      else sorted
    .ok (some (filtered.take max_results))

/-- The formatted-text output of `tavily_search` (numbered list, optional
quality line for academic queries, academic header), including the
`"Search failed: ..."` and `"No search results found."` paths. -/
def tavily_search (client : ℕ → Except String (Option (List RawItem)))
    (summarizer : String → String) (query : String) (max_results : ℕ)
    (include_raw_content : Bool) : String :=
  match tavily_search_results client summarizer query max_results
      include_raw_content with
  | .error e => "Search failed: " ++ e
  | .ok none => "No search results found."
  | .ok (some final) =>
    let academic := is_academic_query query
    let lines := (final.enumFrom 1).map fun (i, item) =>
      let quality_info :=
        if academic then
          "\n   📊 **Quality Score**: " ++ toString item.quality.quality_score
            ++ "/10 (" ++ item.quality.source_type ++ ")"
            ++ "\n   ✅ **Academic Indicators**: "
            ++ (if item.quality.quality_indicators.isEmpty then "General source"
                else String.intercalate ", "
                  (item.quality.quality_indicators.take 3))
        else ""
      toString i ++ ". **" ++ item.title ++ "**\n   URL: " ++ item.url
        ++ quality_info ++ "\n   Content: " ++ item.content ++ "\n"
    let header :=
      if academic then "🎓 **Academic-Enhanced Search Results**\n\n" else ""
    header ++ String.intercalate "\n" lines

/-! ## Agentic Research Loop (`research_agent_mcp_enhanced.py`)

The LangGraph workflow `enhanced_researcher_agent ->
should_continue_enhanced_research -> {enhanced_researcher_agent,
enhanced_compress_research}`.  The reasoning model is a parameter mapping
the accumulated transcript to a response; the merged MCP + `think_tool`
table is a parameter mapping tool names to fallible executables.
-/

/-- One tool invocation request carried by a model response. -/
structure ToolCall where
  id : String
  name : String
  args : List (String × String)
deriving Repr, DecidableEq

/-- A reasoning-model response: text content plus requested tool calls. -/
structure AIResponse where
  content : String
  tool_calls : List ToolCall
deriving Repr, DecidableEq

/-- One transcript turn (`researcher_messages` entry). -/
inductive Msg where
  | human (content : String)
  | ai (content : String) (tool_calls : List ToolCall)
  | tool (content : String) (tool_call_id : String) (name : String)
deriving Repr, DecidableEq

/-- The `content` attribute every turn carries. -/
def Msg.content : Msg → String
  | .human c => c
  | .ai c _ => c
  | .tool c _ _ => c

/-- A merged tool table entry: `args -> result or thrown exception`. -/
abbrev ToolFn := List (String × String) → Except String String

/-- Python `tools_by_name = {tool.name: tool for tool in all_tools}`: a dict
comprehension in which a later tool shadows an earlier one with the same
name, hence the reversed lookup. -/
def tools_by_name (tools : List (String × ToolFn)) (name : String) :
    Option ToolFn :=
  tools.reverse.lookup name

/-- The per-call body of the tool-execution loop in
`enhanced_researcher_agent`: unknown names and thrown exceptions each
yield a tool-result turn carrying an error message and the same
`tool_call_id`. -/
def execute_tool_call (tools : List (String × ToolFn)) (tc : ToolCall) : Msg :=
  match tools_by_name tools tc.name with
  | some f =>
    match f tc.args with
    | .ok result => .tool result tc.id tc.name
    | .error e => .tool ("Tool execution error: " ++ e) tc.id tc.name
  | none => .tool ("Unknown tool: " ++ tc.name) tc.id tc.name

/-- One visit of the `enhanced_researcher_agent` node: invoke the model on
the transcript; when the response requests tools, execute each request in
order and append the response followed by one tool-result turn per request;
otherwise append just the response.  (LangGraph's `add_messages` reducer
appends the returned turns to the state.) -/
def enhanced_researcher_agent (model : List Msg → AIResponse)
    (tools : List (String × ToolFn)) (msgs : List Msg) : List Msg :=
  let response := model msgs
  if response.tool_calls.isEmpty then
    msgs ++ [.ai response.content response.tool_calls]
  else
    msgs ++ [.ai response.content response.tool_calls]
      ++ response.tool_calls.map (execute_tool_call tools)

/-- The fixed completion-phrase list of
`should_continue_enhanced_research`. -/
def completion_phrases : List String :=
  [ "research complete", "analysis finished", "investigation concluded",
    "no more information needed", "comprehensive overview provided" ]

/-- The phrase check of `should_continue_enhanced_research`: the transcript
is nonempty, its last turn has nonempty text, and that text lowercased
contains a completion phrase. -/
def lastMessageSignalsCompletion (messages : List Msg) : Bool :=
  match messages.getLast? with
  | some last =>
    last.content != "" &&
      completion_phrases.any fun p => strContains (strLower last.content) p
  | none => false

/-- The two continuation targets of the conditional edge. -/
inductive Route where
  | agent
  | compress
deriving Repr, DecidableEq

/-- `should_continue_enhanced_research(state)`: compress at the 10-message
cap, else compress when the last turn signals completion, else research
again. -/
def should_continue_enhanced_research (messages : List Msg) : Route :=
  if 10 ≤ messages.length then .compress
  else if lastMessageSignalsCompletion messages then .compress
  else .agent

/-- The compiled workflow run from `START`: visit the agent node, route via
`should_continue_enhanced_research`, repeat until `COMPRESSING`.  `fuel`
bounds the recursion; the returned pair is (number of reasoning-model
invocations made, transcript handed to compression). -/
def run_enhanced_research (model : List Msg → AIResponse)
    (tools : List (String × ToolFn)) :
    ℕ → ℕ → List Msg → Option (ℕ × List Msg)
  | 0, _, _ => none
  | fuel + 1, calls, msgs =>
    let msgs' := enhanced_researcher_agent model tools msgs
    match should_continue_enhanced_research msgs' with
    | .compress => some (calls + 1, msgs')
    | .agent => run_enhanced_research model tools fuel (calls + 1) msgs'

/-! ## Scoping stage and scoped-mode wrappers (`main.py`)

`run_scoping_research` consumes the outcome of the external `scope_research`
workflow (its final message list and optional research brief, or a raised
exception) and renders one of the fixed report formats.
`run_scoped_basic_research` composes it with a research mode; the second
component of its result records the query the research loop was invoked
with, `none` when research was never invoked.  The other three scoped-mode
wrappers (`run_scoped_mcp_research`, `run_scoped_enhanced_mcp_research`,
`run_scoped_full_research`) differ only in the `research` collaborator and
are covered by the same parameterized definition.

Several Python literals in `main.py` contain a two-character `\\n`
(an escaped backslash in the source), reproduced here verbatim.
-/

/-- Outcome of awaiting `scope_research.ainvoke`: the returned state
(message contents plus the optional `research_brief`) or an exception. -/
structure ScopeResult where
  messages : List String
  research_brief : Option String
deriving Repr, DecidableEq

/-- A scoping run either returns a `ScopeResult` or raises. -/
abbrev ScopeOutcome := Except String ScopeResult

/-- The clarification-question indicator list in `run_scoping_research`,
matched as substrings of `ai_response.lower()`. -/
def clarification_indicators : List String :=
  ["?", "clarify", "please provide", "could you", "what specific",
   "more details"]

/-- `run_scoping_research(query)`: renders the scoping outcome as the brief
format, the clarification format, the verification format, or one of the
error formats. -/
def run_scoping_research (query : String) (scope : ScopeOutcome) : String :=
  match scope with
  | .error e =>
    let error_msg := strLower e
    if strContains error_msg "authentication" || strContains error_msg "api_key"
    then
      "**Configuration Issue**\\n\\nThe scoping feature requires proper API configuration. Please check your .env file contains valid API keys.\\n\\n*Error: "
        ++ e ++ "*"
    else if strContains error_msg "model" then
      "**Model Issue**\\n\\nThere was an issue with the AI model. Please try again or use a different research mode.\\n\\n*Error: "
        ++ e ++ "*"
    else
      "**Scoping Error**\\n\\nUnable to process the scoping request: " ++ e
        ++ "\\n\\n*Please try rephrasing your query or use a different research mode.*"
  | .ok result =>
    match result.messages.getLast? with
    | none => "**Scoping Error**\\n\\nNo response received from scoping agent."
    | some ai_response =>
      if (result.research_brief.getD "") != "" then
        "## 📋 Research Brief Generated\n\n" ++ result.research_brief.getD ""
          ++ "\n\n---\n✅ **Ready to Research**: This research brief will guide the investigation. You can now proceed with your preferred research mode for detailed results."
      else if clarification_indicators.any
          (fun ind => strContains (strLower ai_response) ind) then
        "## 🤔 Clarification Needed\n\n" ++ ai_response
          ++ "\n\n---\n💡 **Next Steps**: Please provide more specific details about what you\x27d like to research, and I\x27ll help you get better, more focused results.\n\n**Helpful details to include:**\n- Specific time period or geographic focus\n- Particular aspects you\x27re most interested in  \n- Intended use case or audience for the research\n- Any constraints or requirements"
      else
        "## ✅ Scoping Complete\n\n" ++ ai_response
          ++ "\n\n---\n🚀 **Ready to Proceed**: Your query is well-scoped and ready for research. Continue with your selected research mode for comprehensive results."

/-- Whether the scoping stage itself requested clarification: the workflow
produced a final message, no (truthy) research brief, and the message text
matches a clarification indicator — exactly the condition under which
`run_scoping_research` renders the clarification format. -/
def scoping_requests_clarification (scope : ScopeOutcome) : Bool :=
  match scope with
  | .error _ => false
  | .ok result =>
    match result.messages.getLast? with
    | none => false
    | some ai_response =>
      (result.research_brief.getD "") == "" &&
        clarification_indicators.any
          (fun ind => strContains (strLower ai_response) ind)

/-- Everything strictly before the first occurrence of `close`, or `none`
when `close` never occurs.  Auxiliary to the lazy capture of the brief
extraction regex. -/
def captureBefore (close : List Char) : List Char → Option (List Char)
  | [] => none
  | c :: t =>
    if isPrefixOfCL close (c :: t) then some []
    else (captureBefore close t).map (c :: ·)

/-- Leftmost match of `marker` followed (lazily) by `close`, returning the
captured text between them: the semantics of
`re.search(marker + "(.*?)" + close, s, re.DOTALL)`. -/
def findCapture (marker close : List Char) : List Char → Option (List Char)
  | [] => none
  | c :: t =>
    if isPrefixOfCL marker (c :: t) then
      match captureBefore close ((c :: t).drop marker.length) with
      | some captured => some captured
      | none => findCapture marker close t
    else findCapture marker close t

/-- The brief-extraction step of the scoped wrappers:
`re.search(r"\*\*Research Brief Generated\*\*\n\n(.*?)\n\n\*", s, re.DOTALL)`
followed by `.strip()` on the captured group. -/
def extract_research_brief (scoping_result : String) : Option String :=
  (findCapture "**Research Brief Generated**\n\n".data "\n\n*".data
      scoping_result.data).map fun cs => strStrip ⟨cs⟩

/-- The effective research query computed by the scoped wrappers: the
original query, overridden by the regex-extracted brief when the scoping
result announces one and the pattern matches. -/
def scoped_research_query (query scoping_result : String) : String :=
  if strContains scoping_result "Research Brief Generated" then
    match extract_research_brief scoping_result with
    | some b => b
    | none => query
  else query

/-- `run_scoped_basic_research(query)` (and, with a different `research`
collaborator, the other scoped wrappers): run scoping; short-circuit when
the scoping result contains `"Clarification Needed"`; otherwise research
the extracted brief or the original query.  The second component records
the query research was invoked with (`none` = research never invoked). -/
def run_scoped_basic_research (research : String → String) (query : String)
    (scope : ScopeOutcome) : String × Option String :=
  let scoping_result := run_scoping_research query scope
  if strContains scoping_result "Clarification Needed" then
    ("**Scoping Phase**\n\n" ++ scoping_result
      ++ "\n\n*Please provide the requested clarification, then run the research again.*",
     none)
  else
    let research_query := scoped_research_query query scoping_result
    ("**Research Complete**\n\n" ++ research research_query,
     some research_query)

/-! ## Helper lemmas -/

theorem isPrefixOfCL_append (n h t : List Char) (hp : isPrefixOfCL n h = true) :
    isPrefixOfCL n (h ++ t) = true := by
  induction n generalizing h with
  | nil => simp [isPrefixOfCL]
  | cons a as ih =>
    cases h with
    | nil => simp [isPrefixOfCL] at hp
    | cons b bs =>
      simp only [isPrefixOfCL, Bool.and_eq_true] at hp
      simp only [List.cons_append, isPrefixOfCL, Bool.and_eq_true]
      exact ⟨hp.1, ih bs hp.2⟩

theorem containsCL_nil (b : List Char) : containsCL b [] = true := by
  cases b <;> simp [containsCL, isPrefixOfCL]

theorem containsCL_append_left (a b n : List Char) (h : containsCL a n = true) :
    containsCL (a ++ b) n = true := by
  induction a with
  | nil =>
    cases n with
    | nil => simpa using containsCL_nil b
    | cons c cs => simp [containsCL] at h
  | cons c cs ih =>
    simp only [containsCL, Bool.or_eq_true] at h
    simp only [List.cons_append, containsCL, Bool.or_eq_true]
    rcases h with h | h
    · exact Or.inl (isPrefixOfCL_append n (c :: cs) b h)
    · exact Or.inr (ih h)

theorem containsCL_append_right (a b n : List Char) (h : containsCL b n = true) :
    containsCL (a ++ b) n = true := by
  induction a with
  | nil => simpa using h
  | cons c cs ih =>
    simp only [List.cons_append, containsCL, Bool.or_eq_true]
    exact Or.inr ih

theorem strContains_append_left (a b n : String) (h : strContains a n = true) :
    strContains (a ++ b) n = true := by
  unfold strContains at h ⊢
  rw [String.data_append]
  exact containsCL_append_left _ _ _ h

theorem strContains_append_right (a b n : String) (h : strContains b n = true) :
    strContains (a ++ b) n = true := by
  unfold strContains at h ⊢
  rw [String.data_append]
  exact containsCL_append_right _ _ _ h

theorem lookup_append (m₁ m₂ : List (String × SearchHit)) (k : String) :
    (m₁ ++ m₂).lookup k = (m₁.lookup k).or (m₂.lookup k) := by
  induction m₁ with
  | nil => simp
  | cons p t ih =>
    obtain ⟨k', v⟩ := p
    by_cases hk : k = k'
    · simp [List.lookup, hk]
    · simp only [List.cons_append, List.lookup, beq_eq_false_iff_ne.mpr hk,
        List.append_eq]
      exact ih

theorem lookup_eq_none_iff (m : List (String × SearchHit)) (k : String) :
    m.lookup k = none ↔ k ∉ m.map Prod.fst := by
  induction m with
  | nil => simp
  | cons p t ih =>
    obtain ⟨k', v⟩ := p
    by_cases hk : k = k'
    · simp [List.lookup, hk]
    · simp [List.lookup, beq_eq_false_iff_ne.mpr hk, ih, hk]

theorem dedupInsert_lookup (acc : List (String × SearchHit)) (r : SearchHit)
    (u : String) :
    (dedupInsert acc r).lookup u =
      (acc.lookup u).or (if r.url == u then some r else none) := by
  unfold dedupInsert
  by_cases hru : r.url = u
  · subst hru
    cases h' : acc.lookup r.url with
    | some v => simp [h', Option.or]
    | none => simp [h', lookup_append, List.lookup]
  · have hbeq : (r.url == u) = false := beq_eq_false_iff_ne.mpr hru
    split
    · simp [hbeq]
    · rw [lookup_append]
      simp [List.lookup, hbeq, beq_eq_false_iff_ne.mpr (Ne.symm hru)]

theorem dedup_foldl_lookup (l : List SearchHit) :
    ∀ (acc : List (String × SearchHit)) (u : String),
    (l.foldl dedupInsert acc).lookup u =
      (acc.lookup u).or (l.find? fun r => r.url == u) := by
  induction l with
  | nil => intro acc u; simp
  | cons r t ih =>
    intro acc u
    simp only [List.foldl_cons, ih, dedupInsert_lookup]
    cases hru : (r.url == u) with
    | true =>
      rw [List.find?_cons_of_pos t hru]
      simp only [if_pos rfl, hru, if_true]
      cases acc.lookup u <;> simp [Option.or]
    | false =>
      rw [List.find?_cons_of_neg t (by simp [hru])]
      simp [hru]

theorem dedup_flatten (batches : List (List SearchHit))
    (acc : List (String × SearchHit)) :
    batches.foldl (fun m response => response.foldl dedupInsert m) acc =
      batches.flatten.foldl dedupInsert acc := by
  induction batches generalizing acc with
  | nil => rfl
  | cons b bs ih => simp [List.foldl_append, ih]

theorem dedup_keyEqUrl (l : List SearchHit) (acc : List (String × SearchHit))
    (hacc : ∀ p ∈ acc, p.1 = p.2.url) :
    ∀ p ∈ l.foldl dedupInsert acc, p.1 = p.2.url := by
  induction l generalizing acc with
  | nil => simpa using hacc
  | cons r t ih =>
    simp only [List.foldl_cons]
    apply ih
    intro p hp
    unfold dedupInsert at hp
    split at hp
    · exact hacc p hp
    · rcases List.mem_append.mp hp with h1 | h2
      · exact hacc p h1
      · simp only [List.mem_singleton] at h2
        subst h2
        rfl

theorem dedup_nodupKeys (l : List SearchHit) (acc : List (String × SearchHit))
    (hacc : (acc.map Prod.fst).Nodup) :
    ((l.foldl dedupInsert acc).map Prod.fst).Nodup := by
  induction l generalizing acc with
  | nil => simpa using hacc
  | cons r t ih =>
    simp only [List.foldl_cons]
    apply ih
    unfold dedupInsert
    split
    · exact hacc
    · next hnone =>
      have hmem : r.url ∉ acc.map Prod.fst := by
        rw [← lookup_eq_none_iff]
        cases h' : acc.lookup r.url
        · rfl
        · rw [h'] at hnone; simp at hnone
      rw [List.map_append, List.nodup_append]
      refine ⟨hacc, by simp, ?_⟩
      intro a ha hb
      simp only [List.map_cons, List.map_nil, List.mem_singleton] at hb
      subst hb
      exact hmem ha

theorem dedup_rebuild (m : List (String × SearchHit)) :
    ∀ acc : List (String × SearchHit), (∀ p ∈ m, p.1 = p.2.url) →
    (((acc ++ m).map Prod.fst).Nodup) →
    (m.map Prod.snd).foldl dedupInsert acc = acc ++ m := by
  induction m with
  | nil => intro acc _ _; simp
  | cons p t ih =>
    intro acc hurl hnodup
    obtain ⟨k, r⟩ := p
    have hk : k = r.url := hurl (k, r) (List.mem_cons_self _ _)
    have hknotin : k ∉ acc.map Prod.fst := by
      intro hmem
      rw [List.map_append, List.nodup_append] at hnodup
      exact hnodup.2.2 hmem (by simp)
    have hlookup : acc.lookup r.url = none := by
      rw [lookup_eq_none_iff, ← hk]
      exact hknotin
    simp only [List.map_cons, List.foldl_cons]
    have hins : dedupInsert acc r = acc ++ [(k, r)] := by
      unfold dedupInsert
      rw [hlookup]
      simp [← hk]
    rw [hins]
    have happ : acc ++ (k, r) :: t = (acc ++ [(k, r)]) ++ t := by simp
    rw [happ] at hnodup ⊢
    exact ih (acc ++ [(k, r)]) (fun q hq => hurl q (List.mem_cons_of_mem _ hq))
      hnodup

theorem deduplicate_singleton (xs : List SearchHit) :
    deduplicate_search_results [xs] = xs.foldl dedupInsert [] := rfl

theorem length_enhanced_researcher_agent (model : List Msg → AIResponse)
    (tools : List (String × ToolFn)) (msgs : List Msg) :
    msgs.length + 1 ≤ (enhanced_researcher_agent model tools msgs).length := by
  simp only [enhanced_researcher_agent]
  split <;> simp [List.length_append]

theorem should_continue_eq_compress_iff (messages : List Msg) :
    should_continue_enhanced_research messages = Route.compress ↔
      (10 ≤ messages.length ∨ lastMessageSignalsCompletion messages = true) := by
  unfold should_continue_enhanced_research
  split
  · next h => simp [h]
  · next h =>
    split
    · next h2 => simp [h, h2]
    · next h2 => simp [h, h2]

theorem run_enhanced_research_total (model : List Msg → AIResponse)
    (tools : List (String × ToolFn)) :
    ∀ (fuel calls : ℕ) (msgs : List Msg), 9 ≤ msgs.length + fuel →
    (run_enhanced_research model tools (fuel + 1) calls msgs).isSome = true := by
  intro fuel
  induction fuel with
  | zero =>
    intro calls msgs h
    have hlen : 10 ≤ (enhanced_researcher_agent model tools msgs).length := by
      have := length_enhanced_researcher_agent model tools msgs
      omega
    have hcomp : should_continue_enhanced_research
        (enhanced_researcher_agent model tools msgs) = Route.compress := by
      unfold should_continue_enhanced_research
      rw [if_pos hlen]
    simp only [run_enhanced_research, hcomp, Option.isSome_some]
  | succ f ih =>
    intro calls msgs h
    unfold run_enhanced_research
    dsimp only
    split
    · simp
    · apply ih
      have := length_enhanced_researcher_agent model tools msgs
      omega

/-! ## Claim theorems -/

/-- C4: for every model identifier carrying token rates in the static price
table, the cost of a model call equals inputTokens/1000 times the input
rate plus outputTokens/1000 times the output rate; every identifier absent
from the table uses the default fallback rates (0.001/0.002 USD per 1K
tokens) and the computation returns a cost rather than erroring. -/
theorem spec_C4_cost_formula (model_name : String)
    (input_tokens output_tokens : ℕ) :
    (∀ i o ps, MODEL_PRICING model_name = some ⟨some i, some o, ps⟩ →
      calculate_cost model_name input_tokens output_tokens =
        .ok (((input_tokens : ℚ) / 1000) * i + ((output_tokens : ℚ) / 1000) * o))
    ∧ (MODEL_PRICING model_name = none →
      calculate_cost model_name input_tokens output_tokens =
        .ok (((input_tokens : ℚ) / 1000) * 0.001
          + ((output_tokens : ℚ) / 1000) * 0.002)) := by
  constructor
  · intro i o ps h
    unfold calculate_cost
    rw [h]
    rfl
  · intro h
    unfold calculate_cost
    rw [h]
    rfl

/-- Witness for C4: a table entry (`openai:gpt-4o` at 1000/1000 tokens costs
0.0125 USD) and an absent identifier (fallback rates give 0.003 USD). -/
theorem spec_C4_witness :
    calculate_cost "openai:gpt-4o" 1000 1000 = .ok 0.0125
    ∧ calculate_cost "some-unknown-model" 1000 1000 = .ok 0.003 := by
  constructor
  · rw [(spec_C4_cost_formula "openai:gpt-4o" 1000 1000).1 0.0025 0.010 none rfl]
    congr 1
    norm_num
  · rw [(spec_C4_cost_formula "some-unknown-model" 1000 1000).2 rfl]
    congr 1
    norm_num

/-- C10: `tavily:search` is present in the price table but carries only a
per-search rate, so `calculate_cost` (and hence `track_model_call`) on it
raises `KeyError` on the `"input"` access instead of returning a cost: the
unknown-model fallback applies only to identifiers absent from the table. -/
theorem spec_C10_tavily_key_error :
    MODEL_PRICING "tavily:search" = some ⟨none, none, some 0.005⟩
    ∧ (∀ input_tokens output_tokens : ℕ,
        calculate_cost "tavily:search" input_tokens output_tokens =
          .error "KeyError: input")
    ∧ (∀ (st : CostTrackerState) (input_tokens output_tokens : ℕ)
        (operation : String),
        track_model_call st "tavily:search" input_tokens output_tokens
          operation = .error "KeyError: input") :=
  ⟨rfl, fun _ _ => rfl, fun _ _ _ _ => rfl⟩

/-- C9: deduplication is first-seen-wins — the entry retained for a URL is
the first hit with that URL in batch-then-result order (hence independent
of how later duplicates are ordered) — and re-deduplicating the retained
hits yields the same URL-keyed map. -/
theorem spec_C9_dedup_first_seen_idempotent
    (search_results : List (List SearchHit)) (u : String) :
    (deduplicate_search_results search_results).lookup u =
      search_results.flatten.find? (fun r => r.url == u)
    ∧ deduplicate_search_results
        [(deduplicate_search_results search_results).map Prod.snd] =
      deduplicate_search_results search_results := by
  constructor
  · unfold deduplicate_search_results
    rw [dedup_flatten, dedup_foldl_lookup]
    simp
  · have hkey : ∀ p ∈ deduplicate_search_results search_results,
        p.1 = p.2.url := by
      unfold deduplicate_search_results
      rw [dedup_flatten]
      exact dedup_keyEqUrl _ [] (by simp)
    have hnodup :
        ((deduplicate_search_results search_results).map Prod.fst).Nodup := by
      unfold deduplicate_search_results
      rw [dedup_flatten]
      exact dedup_nodupKeys _ [] (by simp)
    rw [deduplicate_singleton]
    have := dedup_rebuild (deduplicate_search_results search_results) [] hkey
      (by simpa using hnodup)
    simpa using this

/-- C7 (amended): on the success path the summarizer output is the fixed
two-section envelope (so it contains both section markers); on the failure
path it returns the raw content unwrapped — truncated to 1000 characters
with a `"..."` marker only when the content exceeds 1000 characters, and
verbatim otherwise. -/
theorem spec_C7_amended (s : Summary) (content : String) :
    summarize_webpage_content (some s) content =
      "<summary>\n" ++ s.summary ++ "\n</summary>\n\n" ++ "<key_excerpts>\n"
        ++ s.key_excerpts ++ "\n</key_excerpts>"
    ∧ strContains (summarize_webpage_content (some s) content) "<summary>"
        = true
    ∧ strContains (summarize_webpage_content (some s) content) "<key_excerpts>"
        = true
    ∧ summarize_webpage_content none content =
        (if content.length > 1000 then ⟨content.data.take 1000⟩ ++ "..."
         else content) := by
  refine ⟨rfl, ?_, ?_, rfl⟩
  · simp only [summarize_webpage_content]
    apply strContains_append_left
    apply strContains_append_left
    apply strContains_append_left
    apply strContains_append_left
    apply strContains_append_left
    decide
  · simp only [summarize_webpage_content]
    apply strContains_append_left
    apply strContains_append_left
    apply strContains_append_right
    decide

/-- C7 counterexample: on the failure path with short input the returned
value is the raw content itself, not wrapped in the
`<summary>`/`<key_excerpts>` envelope (it does not even contain the
`<summary>` marker), refuting "for every input the returned value is
wrapped in the envelope, including on the failure path". -/
theorem spec_C7_counterexample :
    summarize_webpage_content none "hello" = "hello"
    ∧ strContains "hello" "<summary>" = false :=
  ⟨rfl, by decide⟩

/-- C5 (amended): the quality assessment is a deterministic bounded score —
the returned score is at most 10 (and at least 0 by type), the academic
flag equals `score >= 5` of the returned capped score, and a URL containing
`nature.com` receives domain base score 10 provided it does not also
contain one of the domains listed before `nature.com` in the table
(`arxiv.org`, `pubmed.ncbi.nlm.nih.gov`), which would be matched first. -/
theorem spec_C5_amended (url title content : String) :
    (assess_source_quality url title content).quality_score ≤ 10
    ∧ (assess_source_quality url title content).is_academic =
        decide (5 ≤ (assess_source_quality url title content).quality_score)
    ∧ (strContains (strLower url) "arxiv.org" = false →
       strContains (strLower url) "pubmed.ncbi.nlm.nih.gov" = false →
       strContains (strLower url) "nature.com" = true →
       domainLookup url = some (10, "peer-reviewed", "Nature Publishing")) := by
  refine ⟨Nat.min_le_right _ _, ?_, ?_⟩
  · show decide (5 ≤ uncapped_quality_score url title content) =
      decide (5 ≤ min (uncapped_quality_score url title content) 10)
    rw [decide_eq_decide]
    constructor
    · intro h
      exact Nat.le_min.mpr ⟨h, by norm_num⟩
    · intro h
      exact le_trans h (Nat.min_le_left _ _)
  · intro h1 h2 h3
    unfold domainLookup high_quality_domains
    rw [List.find?_cons_of_neg _ (by simp [h1]),
        List.find?_cons_of_neg _ (by simp [h2]),
        List.find?_cons_of_pos _ (by simp [h3])]
    rfl

/-- Witness for C5: a plain Nature URL takes the 10-class base score, and
its returned capped score is within bounds. -/
theorem spec_C5_witness :
    domainLookup "https://www.nature.com/articles/s41586" =
      some (10, "peer-reviewed", "Nature Publishing")
    ∧ (assess_source_quality "https://www.nature.com/articles/s41586" "" ""
        ).quality_score ≤ 10 :=
  ⟨(spec_C5_amended "https://www.nature.com/articles/s41586" "" "").2.2
      (by decide) (by decide) (by decide),
   (spec_C5_amended "https://www.nature.com/articles/s41586" "" "").1⟩

/-- C5 counterexample: a URL containing both `arxiv.org` and `nature.com`
matches the `arxiv.org` table entry first (insertion order with `break`),
so it receives base score 9 — not 10 — refuting "every URL containing
nature.com receives a base score of 10". -/
theorem spec_C5_counterexample :
    strContains (strLower "https://arxiv.org/abs/2410.01?utm=nature.com")
      "nature.com" = true
    ∧ domainLookup "https://arxiv.org/abs/2410.01?utm=nature.com" =
        some (9, "preprint", "ArXiv preprint server")
    ∧ (assess_source_quality "https://arxiv.org/abs/2410.01?utm=nature.com"
        "" "").quality_score = 9 :=
  ⟨by decide, by decide, by decide⟩

theorem map_url_qualify (summarizer : String → String)
    (include_raw_content : Bool) (items : List RawItem) :
    (items.map (qualify_result summarizer include_raw_content)).map
        QualifiedResult.url =
      items.map fun item => item.url.getD "No URL" := by
  induction items with
  | nil => rfl
  | cons a t ih =>
    rw [List.map_cons, List.map_cons, List.map_cons, ih]
    rfl

theorem lastSignals_concat (msgs : List Msg) (m : Msg) :
    lastMessageSignalsCompletion (msgs ++ [m]) =
      (m.content != "" && completion_phrases.any fun p =>
        strContains (strLower m.content) p) := by
  unfold lastMessageSignalsCompletion
  rw [List.getLast?_concat]

/-- C1 (amended): a model response with no tool invocation requests does not
by itself route the loop to COMPRESSING; after such a response the loop
transitions to COMPRESSING exactly when the grown transcript has reached the
10-message cap or the response text is nonempty and contains a completion
phrase — otherwise the reasoning model is invoked again. -/
theorem spec_C1_amended (model : List Msg → AIResponse)
    (tools : List (String × ToolFn)) (msgs : List Msg)
    (h : (model msgs).tool_calls = []) :
    should_continue_enhanced_research
        (enhanced_researcher_agent model tools msgs) = Route.compress ↔
      (10 ≤ msgs.length + 1 ∨
        ((model msgs).content != "" &&
          completion_phrases.any fun p =>
            strContains (strLower (model msgs).content) p) = true) := by
  have hstep : enhanced_researcher_agent model tools msgs =
      msgs ++ [Msg.ai (model msgs).content []] := by
    unfold enhanced_researcher_agent
    dsimp only
    rw [h]
    simp
  rw [hstep, should_continue_eq_compress_iff, lastSignals_concat]
  simp [Msg.content]

/-- Witness for C1 (amended): a no-tool-call response whose text contains a
completion phrase does route to COMPRESSING. -/
theorem spec_C1_witness :
    should_continue_enhanced_research
      (enhanced_researcher_agent (fun _ => ⟨"research complete", []⟩) []
        [Msg.human "What changed?"]) = Route.compress :=
  (spec_C1_amended (fun _ => ⟨"research complete", []⟩) []
    [Msg.human "What changed?"] rfl).mpr (Or.inr (by decide))

/-- C1 counterexample: with a scripted model that never requests tools and
never emits a completion phrase, the first no-tool-call response routes the
loop back to the agent node — not to COMPRESSING — and the reasoning model
ends up invoked 9 times (not once) before compression, refuting the claim
that a tool-free response transitions directly to COMPRESSING after exactly
one model invocation. -/
theorem spec_C1_counterexample :
    should_continue_enhanced_research
      (enhanced_researcher_agent
        (fun _ => ⟨"I examined the EV market data.", []⟩) []
        [Msg.human "Summarize the EV market"]) = Route.agent
    ∧ (run_enhanced_research (fun _ => ⟨"I examined the EV market data.", []⟩)
        [] 20 0 [Msg.human "Summarize the EV market"]).map Prod.fst =
      some 9 :=
  ⟨by decide, by decide⟩

/-- C2 (amended): reaching the 10-message cap, or the last transcript turn
(the most recent turn, which is a tool-result turn when tools just ran —
not necessarily the most recent assistant text) having nonempty text
containing a completion phrase, forces the COMPRESSING transition; and
against a model that requests a tool on every turn the loop terminates
within fuel 10, by the time the transcript reaches the cap. -/
theorem spec_C2_amended (model : List Msg → AIResponse)
    (tools : List (String × ToolFn)) (q : String) (msgs : List Msg)
    (h : ∀ m, (model m).tool_calls ≠ []) :
    ((10 ≤ msgs.length ∨ lastMessageSignalsCompletion msgs = true) →
      should_continue_enhanced_research msgs = Route.compress)
    ∧ (run_enhanced_research model tools 10 0 [Msg.human q]).isSome = true :=
  ⟨fun hc => (should_continue_eq_compress_iff msgs).mpr hc,
   run_enhanced_research_total model tools 9 0 [Msg.human q] (by simp)⟩

/-- Witness for C2 (amended): a completion-phrase transcript routes to
COMPRESSING, and the loop driven by an always-tool-calling scripted model
terminates with fuel 10. -/
theorem spec_C2_witness :
    should_continue_enhanced_research
      [Msg.ai "Research complete. No further queries." []] = Route.compress
    ∧ (run_enhanced_research
        (fun _ => ⟨"Searching further.", [⟨"c1", "tavily_search", []⟩]⟩) []
        10 0 [Msg.human "EV market"]).isSome = true := by
  have hspec := spec_C2_amended
    (fun _ => ⟨"Searching further.", [⟨"c1", "tavily_search", []⟩]⟩) []
    "EV market" [Msg.ai "Research complete. No further queries." []]
    (fun _ => by simp)
  exact ⟨hspec.1 (Or.inr (by decide)), hspec.2⟩

/-- C2 counterexample: a state whose most recent assistant text contains
"research complete" but whose final turn is a tool result without a phrase
is routed back to the agent node, refuting the claim that a completion
phrase in the most recent assistant text forces COMPRESSING — the code
inspects only the final transcript turn. -/
theorem spec_C2_counterexample :
    strContains
      (strLower (Msg.ai "Research complete." [⟨"c1", "tavily_search", []⟩]
        ).content) "research complete" = true
    ∧ [Msg.ai "Research complete." [⟨"c1", "tavily_search", []⟩],
        Msg.tool "Found 3 results" "c1" "tavily_search"].length < 10
    ∧ should_continue_enhanced_research
        [Msg.ai "Research complete." [⟨"c1", "tavily_search", []⟩],
         Msg.tool "Found 3 results" "c1" "tavily_search"] = Route.agent :=
  ⟨by decide, by decide, by decide⟩

/-- C3 (amended): an unknown tool name or a thrown tool exception yields a
tool-result turn carrying an error message correlated to the same call
identifier; a tool-requesting response appends the response and one
tool-result turn per request, in request order, without raising; and the
loop then returns to the agent node provided the bounded heuristic permits
(transcript under the 10-message cap and no completion signal) — otherwise
it proceeds to COMPRESSING. -/
theorem spec_C3_amended (tools : List (String × ToolFn)) (tc : ToolCall)
    (model : List Msg → AIResponse) (msgs : List Msg) :
    (tools_by_name tools tc.name = none →
      execute_tool_call tools tc =
        Msg.tool ("Unknown tool: " ++ tc.name) tc.id tc.name)
    ∧ (∀ f e, tools_by_name tools tc.name = some f → f tc.args = .error e →
        execute_tool_call tools tc =
          Msg.tool ("Tool execution error: " ++ e) tc.id tc.name)
    ∧ ((model msgs).tool_calls ≠ [] →
        enhanced_researcher_agent model tools msgs =
          msgs ++ [Msg.ai (model msgs).content (model msgs).tool_calls]
            ++ (model msgs).tool_calls.map (execute_tool_call tools))
    ∧ ((enhanced_researcher_agent model tools msgs).length < 10 →
        lastMessageSignalsCompletion
          (enhanced_researcher_agent model tools msgs) = false →
        should_continue_enhanced_research
          (enhanced_researcher_agent model tools msgs) = Route.agent) := by
  refine ⟨?_, ?_, ?_, ?_⟩
  · intro h
    unfold execute_tool_call
    rw [h]
  · intro f e hf he
    unfold execute_tool_call
    rw [hf]
    dsimp only
    rw [he]
  · intro h
    have hne : (model msgs).tool_calls.isEmpty = false := by
      cases hm : (model msgs).tool_calls
      · exact absurd hm h
      · rfl
    unfold enhanced_researcher_agent
    dsimp only
    simp [hne]
  · intro hlen hsig
    unfold should_continue_enhanced_research
    rw [if_neg (by omega), if_neg (by simp [hsig])]

/-- Witness for C3 (amended): the `nonexistent_tool` scenario — the unknown
tool yields an error tool-result turn with the same call id, the turn is
appended after the response, and the loop routes back to the agent node. -/
theorem spec_C3_witness :
    execute_tool_call [] ⟨"call_1", "nonexistent_tool", []⟩ =
      Msg.tool "Unknown tool: nonexistent_tool" "call_1" "nonexistent_tool"
    ∧ enhanced_researcher_agent
        (fun _ => ⟨"Let me check.", [⟨"call_1", "nonexistent_tool", []⟩]⟩) []
        [Msg.human "EV adoption"] =
        [Msg.human "EV adoption",
         Msg.ai "Let me check." [⟨"call_1", "nonexistent_tool", []⟩],
         Msg.tool "Unknown tool: nonexistent_tool" "call_1" "nonexistent_tool"]
    ∧ should_continue_enhanced_research
        (enhanced_researcher_agent
          (fun _ => ⟨"Let me check.", [⟨"call_1", "nonexistent_tool", []⟩]⟩) []
          [Msg.human "EV adoption"]) = Route.agent := by
  have hspec := spec_C3_amended [] ⟨"call_1", "nonexistent_tool", []⟩
    (fun _ => ⟨"Let me check.", [⟨"call_1", "nonexistent_tool", []⟩]⟩)
    [Msg.human "EV adoption"]
  refine ⟨hspec.1 rfl, ?_, hspec.2.2.2 (by decide) (by decide)⟩
  rw [hspec.2.2.1 (by simp)]
  rfl

/-- C3 counterexample: from an 8-turn transcript, a response requesting the
unknown `nonexistent_tool` still gets its error tool-result turn appended,
but the grown transcript hits the 10-message cap and the loop proceeds to
COMPRESSING — not to the next AWAITING_MODEL state — refuting the claim
that the loop always continues to AWAITING_MODEL after a failed call. -/
theorem spec_C3_counterexample :
    (enhanced_researcher_agent
        (fun _ => ⟨"", [⟨"call_9", "nonexistent_tool", []⟩]⟩) []
        [Msg.human "m1", Msg.human "m2", Msg.human "m3", Msg.human "m4",
         Msg.human "m5", Msg.human "m6", Msg.human "m7", Msg.human "m8"]
      ).getLast? =
      some (Msg.tool "Unknown tool: nonexistent_tool" "call_9"
        "nonexistent_tool")
    ∧ should_continue_enhanced_research
        (enhanced_researcher_agent
          (fun _ => ⟨"", [⟨"call_9", "nonexistent_tool", []⟩]⟩) []
          [Msg.human "m1", Msg.human "m2", Msg.human "m3", Msg.human "m4",
           Msg.human "m5", Msg.human "m6", Msg.human "m7", Msg.human "m8"]) =
      Route.compress :=
  ⟨by decide, by decide⟩

/-- C6 (amended): the single-query search tool performs no URL-based
deduplication — on a non-academic query every raw hit is quality-assessed
and kept, so the final formatted list is exactly the first `max_results`
raw hits in order, URL duplicates included. -/
theorem spec_C6_amended (client : ℕ → Except String (Option (List RawItem)))
    (summarizer : String → String) (query : String) (max_results : ℕ)
    (include_raw_content : Bool) (items : List RawItem)
    (hq : is_academic_query query = false)
    (hc : client max_results = .ok (some items)) :
    (tavily_search_results client summarizer query max_results
        include_raw_content).map (Option.map (List.map QualifiedResult.url)) =
      .ok (some ((items.map fun item => item.url.getD "No URL").take
        max_results)) := by
  simp only [tavily_search_results, hq, hc, Bool.false_eq_true, if_false]
  dsimp only [Except.map, Option.map]
  rw [List.map_take, map_url_qualify]

/-- Witness for C6 (amended): a non-academic query with two raw hits and
`max_results = 1` returns exactly the first hit's URL. -/
theorem spec_C6_witness :
    (tavily_search_results
        (fun _ => .ok (some
          [⟨some "T1", some "https://a.com", some "c1", none⟩,
           ⟨some "T2", some "https://b.com", some "c2", none⟩]))
        id "ev market news" 1 false).map
      (Option.map (List.map QualifiedResult.url)) =
      .ok (some ["https://a.com"]) := by
  rw [spec_C6_amended _ id "ev market news" 1 false _ (by decide) rfl]
  rfl

/-- C6 counterexample: two raw hits sharing a URL both survive into the
final result list of `tavily_search`, refuting the claim that the formatted
list never contains two entries with the same URL. -/
theorem spec_C6_counterexample :
    (tavily_search_results
        (fun _ => .ok (some
          [⟨some "T1", some "https://a.com", some "c1", none⟩,
           ⟨some "T2", some "https://a.com", some "c2", none⟩]))
        id "ev market" 3 false).map
      (Option.map (List.map QualifiedResult.url)) =
      .ok (some ["https://a.com", "https://a.com"]) := by
  rfl

/-- C8 (amended): the scoped-mode wrapper detects clarification by the
literal substring `"Clarification Needed"` in the formatted scoping result.
Whenever the scoping stage requests clarification that substring is present
and the wrapper short-circuits without invoking research; research is
invoked — with the regex-extracted brief, else the original query verbatim
— exactly when the substring is absent, so scoping output that merely
mentions the phrase also short-circuits. -/
theorem spec_C8_amended (research : String → String) (query : String)
    (scope : ScopeOutcome) :
    (scoping_requests_clarification scope = true →
      strContains (run_scoping_research query scope) "Clarification Needed"
        = true)
    ∧ (strContains (run_scoping_research query scope) "Clarification Needed"
          = true →
        run_scoped_basic_research research query scope =
          ("**Scoping Phase**\n\n" ++ run_scoping_research query scope
            ++ "\n\n*Please provide the requested clarification, then run the research again.*",
           none))
    ∧ (strContains (run_scoping_research query scope) "Clarification Needed"
          = false →
        run_scoped_basic_research research query scope =
          ("**Research Complete**\n\n" ++ research
              (scoped_research_query query (run_scoping_research query scope)),
           some (scoped_research_query query
             (run_scoping_research query scope)))) := by
  refine ⟨?_, ?_, ?_⟩
  · intro h
    cases scope with
    | error e => simp [scoping_requests_clarification] at h
    | ok result =>
      unfold scoping_requests_clarification at h
      dsimp only at h
      cases hl : result.messages.getLast? with
      | none => rw [hl] at h; simp at h
      | some ai_response =>
        rw [hl] at h
        dsimp only at h
        simp only [Bool.and_eq_true] at h
        obtain ⟨hb, hind⟩ := h
        unfold run_scoping_research
        dsimp only
        rw [hl]
        dsimp only
        have hb' : ((result.research_brief.getD "") != "") = false := by
          simp only [bne, hb]
          rfl
        rw [hb', if_neg (by simp), if_pos hind]
        apply strContains_append_left
        apply strContains_append_left
        decide
  · intro h
    unfold run_scoped_basic_research
    dsimp only
    rw [if_pos h]
  · intro h
    unfold run_scoped_basic_research
    dsimp only
    rw [if_neg (by simp [h])]

/-- Witness for C8 (amended): a scoping response that is a clarifying
question short-circuits the wrapper — research is never invoked. -/
theorem spec_C8_witness :
    strContains (run_scoping_research "EV adoption"
        (.ok ⟨["Could you specify a time period?"], none⟩))
      "Clarification Needed" = true
    ∧ (run_scoped_basic_research (fun _ => "research output") "EV adoption"
        (.ok ⟨["Could you specify a time period?"], none⟩)).2 = none := by
  have hspec := spec_C8_amended (fun _ => "research output") "EV adoption"
    (.ok ⟨["Could you specify a time period?"], none⟩)
  have h1 := hspec.1 (by decide)
  refine ⟨h1, ?_⟩
  rw [hspec.2.1 h1]

/-- C8 counterexample: a scoping verification message that merely mentions
"Clarification Needed" — the scoping stage did not request clarification —
still makes the wrapper return without ever invoking the research loop,
refuting the claim that research is invoked whenever scoping did not
request clarification. -/
theorem spec_C8_counterexample :
    scoping_requests_clarification
      (.ok ⟨["Clarification Needed tracking is an interesting topic."], none⟩)
      = false
    ∧ (run_scoped_basic_research (fun q => "results for " ++ q) "EV adoption"
        (.ok ⟨["Clarification Needed tracking is an interesting topic."],
          none⟩)).2 = none :=
  ⟨by decide, by decide⟩

end DeepResearch
